import Mathlib

/-!
Shallow embedding of the retrieval-fusion-and-scheduling core of the
syncwithme travel RAG system, together with proofs about its behaviour.

The embedding follows the JavaScript/TypeScript sources:
  * `dist/core/intent-extractor.js`  (class `IntentExtractor`)
  * `dist/core/vector-store.js`      (class `CloudVectorStore`)
  * `dist/core/dual-rag-system.js`   (class `DualRAGSystem`)
  * `src/core/affiliate-engine.ts`   (class `DayPlanner`)

Modelling conventions:
  * JS numbers are modelled as `ℚ` (confidences, scores, prices, distances)
    or as `ℕ` where the source only ever produces naturals (minutes, match
    scores, parsed price tokens).
  * `async` collaborator calls (OpenAI completions, Pinecone queries) are
    modelled by passing the outcome of the collaborator as an explicit
    `Except`/`Option` argument: `.error` is a rejected promise (a thrown
    error), `.ok` a successful response.
  * JS string methods (`toLowerCase`, `includes`, `split`, `Number`,
    `parseInt`, regex match `/€(\d+)/`) are re-implemented as structurally
    recursive functions over `List Char` so that every definition is
    executable and kernel-reducible.  `toLowerCase` is modelled on the
    ASCII range (`Char.toLower`), which covers every string the sources
    compare.
  * `Array.prototype.sort` (guaranteed stable since ES2019) is modelled by
    `List.insertionSort`, which is stable; for a consistent comparator the
    stable sorted permutation is unique, so this is exact.
  * `Set` based de-duplication is modelled by first-occurrence
    de-duplication functions.
-/

namespace SyncRAG

/-! ### JS string and number primitives -/

/-- ASCII lower-casing of a character list (models `String.prototype.toLowerCase`). -/
def lowerChars (l : List Char) : List Char := l.map Char.toLower

/-- ASCII lower-casing of a string (models `String.prototype.toLowerCase`). -/
def lowerStr (s : String) : String := ⟨lowerChars s.data⟩

/-- Whether the first list is a prefix of the second (Bool-valued, executable). -/
def isPrefixChars : List Char → List Char → Bool
  | [], _ => true
  | _ :: _, [] => false
  | a :: as, b :: bs => a == b && isPrefixChars as bs

/-- Whether `sub` occurs contiguously inside the second list. -/
def occursIn (sub : List Char) : List Char → Bool
  | [] => sub.isEmpty
  | c :: rest => isPrefixChars sub (c :: rest) || occursIn sub rest

/-- Models `s.includes(pat)` of JS: `pat` occurs as a substring of `s`. -/
def strIncludes (s pat : String) : Bool := occursIn pat.data s.data

/-- Value of a list of decimal digit characters. -/
def digitsToNat (l : List Char) : Nat := l.foldl (fun n c => n * 10 + (c.toNat - 48)) 0

def splitOnCharAux (sep : Char) : List Char → List Char → List (List Char)
  | [], acc => [acc.reverse]
  | c :: rest, acc =>
    if c == sep then acc.reverse :: splitOnCharAux sep rest []
    else splitOnCharAux sep rest (c :: acc)

/-- Models `s.split(sep)` of JS for a one-character separator. -/
def splitOnChar (sep : Char) (l : List Char) : List (List Char) := splitOnCharAux sep l []

/-- Models JS `Number(s)` restricted to the non-negative integral strings the
sources produce: `Number("") = 0`, a digit string parses to its value, and any
other string yields `NaN`, modelled as `none`. -/
def numberJS (l : List Char) : Option Nat :=
  if l.isEmpty then some 0
  else if l.all Char.isDigit then some (digitsToNat l)
  else none

/-- Models `timeToMinutes` of `DayPlanner`:
`const [hours, minutes] = time.split(':').map(Number); return hours * 60 + minutes`.
A malformed time produces `NaN` in JS; no caller of the embedding evaluates a
malformed time, and `NaN` is represented by `0`. -/
def timeToMinutes (time : String) : Nat :=
  match (splitOnChar ':' time.data).map numberJS with
  | some h :: some m :: _ => h * 60 + m
  | _ => 0

/-- Leading decimal digits of a character list. -/
def leadingDigits (l : List Char) : List Char := l.takeWhile Char.isDigit

/-- Models JS `parseInt(s)` for the strings the sources feed it: the leading
digit run parses to its value, and a string with no leading digit yields `NaN`
(`none`). -/
def parseIntJS (l : List Char) : Option Nat :=
  match leadingDigits l with
  | [] => none
  | ds => some (digitsToNat ds)

/-- Models `parseInt(time.split(':')[0])` in `generateTips`; `NaN` is
represented by `0`, which falls outside every hour range the tips test, just
as `NaN` does. -/
def hourOf (time : String) : Nat :=
  match parseIntJS ((splitOnChar ':' time.data).headD []) with
  | some n => n
  | none => 0

/-- Models the regex match `price.match(/€(\d+)/)` of `calculateTotalCost`:
the digit run immediately following the first `€` that is followed by at least
one digit, or `none` when the regex does not match. -/
def euroToken : List Char → Option Nat
  | [] => none
  | c :: rest =>
    if c == '€' then
      match leadingDigits rest with
      | [] => euroToken rest
      | ds => some (digitsToNat ds)
    else euroToken rest

/-- First-occurrence de-duplication of a string list with an explicit seen
accumulator; models iterating a JS `Set` built by insertion. -/
def dedupStringsAux (seen : List String) : List String → List String
  | [] => []
  | s :: rest =>
    if seen.contains s then dedupStringsAux seen rest
    else s :: dedupStringsAux (s :: seen) rest

/-- Models `[...new Set(l)]` for string lists. -/
def dedupStrings (l : List String) : List String := dedupStringsAux [] l

/-! ### Data model (types of `src/types`) -/

inductive BudgetTier
  | low | medium | high | luxury
deriving DecidableEq

inductive GroupType
  | solo | couple | friends | family
deriving DecidableEq

inductive Pace
  | relaxed | moderate | intensive
deriving DecidableEq

/-- Date range of an intent (`dates: {start, end}`); `end` is a Lean keyword,
so the field is named `endDate`. -/
structure DateRange where
  startDate : String
  endDate : String
deriving DecidableEq

structure Venue where
  name : String
  type : String
  address : Option String
  priceRange : String
  bookingMethod : String
  rating : ℚ
  specialNotes : List String
deriving DecidableEq

structure PatternMetadata where
  source : Option String
  bookingPattern : String
  localInsights : List String
deriving DecidableEq

structure SuccessPattern where
  id : String
  destination : String
  category : String
  venues : List Venue
  budgetTier : Option BudgetTier
  successRate : ℚ
  userSatisfaction : ℚ
  metadata : PatternMetadata
deriving DecidableEq

/-- Intent fragment a language pattern maps to (`mapsTo`). -/
structure MapsTo where
  budgetTier : Option BudgetTier := none
  interests : Option (List String) := none
  pace : Option Pace := none
  groupType : Option GroupType := none
deriving DecidableEq

structure LanguagePattern where
  id : String
  intent : String
  phrases : List String
  confidence : ℚ
  mapsTo : MapsTo
deriving DecidableEq

/-- Content of a retrieval hit; the TS `type` discriminator string
(`success_pattern` / `language_pattern`) is the constructor. -/
inductive RAGContent
  | successPattern (p : SuccessPattern)
  | languagePattern (p : LanguagePattern)
deriving DecidableEq

structure RAGResult where
  content : RAGContent
  confidence : ℚ
  source : String
deriving DecidableEq

structure TravelIntent where
  destination : String
  dates : Option DateRange
  interests : List String
  budgetTier : BudgetTier
  groupType : GroupType
  pace : Pace
  originalText : String
  confidence : ℚ
deriving DecidableEq

/-- Partial intent: the loose JS object produced by the AI guess
(`extractWithAI`) or by phrase-pattern accumulation (`extractFromPatterns`).
Absent (`undefined`) fields are `none`. -/
structure PartialIntent where
  destination : Option String := none
  dates : Option DateRange := none
  interests : Option (List String) := none
  budgetTier : Option BudgetTier := none
  groupType : Option GroupType := none
  pace : Option Pace := none
  confidence : Option ℚ := none
deriving DecidableEq

structure TravelRecommendation where
  venues : List Venue
  confidence : ℚ
  reasoning : String
  localTips : List String
  alternatives : List Venue
deriving DecidableEq

/-! ### Intent extractor (`dist/core/intent-extractor.js`) -/

/-- Models `mergeArrays(arr1, arr2)`: concatenate (treating `undefined` as
empty) and de-duplicate via `[...new Set(combined)]`. -/
def mergeArrays (a b : Option (List String)) : List String :=
  dedupStrings (a.getD [] ++ b.getD [])

/-- Models `mergeIntents(aiIntent, patternIntent, originalText)`.  Scalar
fields prefer the phrase-pattern value, then the AI value, then a hard
default; `destination` comes from the AI guess alone (`aiIntent.destination`
with a falsy fallback, where both `undefined` and the empty string collapse
to the empty string); the final
confidence is `Math.max(aiConfidence || 0, patternConfidence || 0, 0.5)`. -/
def mergeIntents (aiIntent patternIntent : PartialIntent) (originalText : String) :
    TravelIntent :=
  { destination := aiIntent.destination.getD ""
    dates := aiIntent.dates
    interests := mergeArrays aiIntent.interests patternIntent.interests
    budgetTier := (patternIntent.budgetTier.orElse fun _ => aiIntent.budgetTier).getD .medium
    groupType := (patternIntent.groupType.orElse fun _ => aiIntent.groupType).getD .solo
    pace := (patternIntent.pace.orElse fun _ => aiIntent.pace).getD .moderate
    originalText := originalText
    confidence := max (max (aiIntent.confidence.getD 0) (patternIntent.confidence.getD 0)) (1/2) }

/-- One iteration of the `for (const pattern of patterns)` loop of
`extractFromPatterns`: skip non-language hits, and on a literal substring
match of any stored phrase absorb the `mapsTo` fragment (later matches
overwrite scalar fields, interests accumulate) and raise the running
confidence to the score of the hit. -/
def stepPattern (message : String) (acc : PartialIntent × ℚ) (r : RAGResult) :
    PartialIntent × ℚ :=
  match r.content with
  | .successPattern _ => acc
  | .languagePattern langPattern =>
    let matchingPhrases := langPattern.phrases.filter fun phrase =>
      strIncludes message (lowerStr phrase)
    if matchingPhrases.length > 0 then
      let confidence := max acc.2 r.confidence
      let e := acc.1
      let e := match langPattern.mapsTo.budgetTier with
        | some b => { e with budgetTier := some b }
        | none => e
      let e := match langPattern.mapsTo.interests with
        | some is => { e with interests := some (e.interests.getD [] ++ is) }
        | none => e
      let e := match langPattern.mapsTo.pace with
        | some p => { e with pace := some p }
        | none => e
      let e := match langPattern.mapsTo.groupType with
        | some g => { e with groupType := some g }
        | none => e
      (e, confidence)
    else acc

/-- Models `extractFromPatterns(userMessage, patterns)`. -/
def extractFromPatterns (userMessage : String) (patterns : List RAGResult) :
    PartialIntent :=
  let message := lowerStr userMessage
  let res := patterns.foldl (stepPattern message) ({}, 0)
  { res.1 with confidence := some res.2 }

/-- Outcome of the completion-client call inside `extractWithAI`:
`.error` is a rejected API promise or a `JSON.parse` throw, `.ok none` is a
response with missing/empty content (the `if (!content) throw` branch, caught
by the same `catch`), `.ok (some v)` a successfully parsed intent guess. -/
def AIOutcome : Type := Except String (Option PartialIntent)

/-- The degraded guess `{ confidence: 0.3 }` returned by the `catch` branch of
`extractWithAI`. -/
def degradedGuess : PartialIntent := { confidence := some (3/10) }

/-- Models `extractWithAI`: every internal failure is caught and degrades to
`{ confidence: 0.3 }`. -/
def extractWithAI : AIOutcome → PartialIntent
  | .ok (some v) => v
  | .ok none => degradedGuess
  | .error _ => degradedGuess

/-- Models `extractIntent(userMessage)`.  The first awaited call,
`vectorStore.queryLanguagePatterns(userMessage)`, is NOT guarded by any
`try`/`catch`, so its rejection propagates out of `extractIntent`; the AI
extraction is internally guarded. -/
def extractIntent (phraseLookup : Except String (List RAGResult))
    (aiOutcome : AIOutcome) (userMessage : String) : Except String TravelIntent :=
  match phraseLookup with
  | .error e => .error e
  | .ok languagePatterns =>
    let aiIntent := extractWithAI aiOutcome
    let patternIntent := extractFromPatterns userMessage languagePatterns
    .ok (mergeIntents aiIntent patternIntent userMessage)

/-! ### Retrieval layer (`dist/core/vector-store.js`) -/

/-- A hit returned by the vector index for the pattern collection.  The raw
JSON metadata is modelled by the structured pattern it parses to
(`parseSuccessPattern`); `source` is the optional `metadata.source` field. -/
structure PatternMatch where
  score : ℚ
  metadata : SuccessPattern
  source : Option String
deriving DecidableEq

/-- A hit returned by the vector index for the phrase collection; the raw
metadata is modelled by the language pattern it parses to
(`parseLanguagePattern`). -/
structure PhraseMatch where
  score : ℚ
  metadata : LanguagePattern
deriving DecidableEq

/-- Models `querySuccessPatterns(query, filters)` from the point where the
index has answered: keep hits with `score >= CONFIG.rag.confidenceThreshold`
(the configurable pattern threshold, an explicit argument here) and map each
to a `RAGResult` carrying the score of the hit, preserving index order. -/
def querySuccessPatterns (hits : List PatternMatch)
    (confidenceThreshold : ℚ) : List RAGResult :=
  (hits.filter fun m => decide (confidenceThreshold ≤ m.score)).map fun m =>
    { content := .successPattern m.metadata
      confidence := m.score
      source := m.source.getD "unknown" }

/-- Models `queryLanguagePatterns(query)` from the point where the index has
answered: keep hits with `score >= 0.6` (the independent fixed phrase
threshold) and map each to a `RAGResult`, preserving index order. -/
def queryLanguagePatterns (hits : List PhraseMatch) : List RAGResult :=
  (hits.filter fun m => decide ((6 : ℚ)/10 ≤ m.score)).map fun m =>
    { content := .languagePattern m.metadata
      confidence := m.score
      source := "language_corpus" }

/-! ### Fusion and recommendation engine (`dist/core/dual-rag-system.js`) -/

/-- Models `getBudgetRange(budgetTier)`; the TS `switch` also has a
default arm returning the medium range, unreachable because `BudgetTier` is
exactly these four values. -/
def getBudgetRange : BudgetTier → String
  | .low => "€5-20"
  | .medium => "€20-50"
  | .high => "€50-100"
  | .luxury => "€100+"

/-- Models the JS fallback of `intent.interests[0]` to `attraction` (an empty first interest is
falsy in JS and also falls back). -/
def primaryInterest (interests : List String) : String :=
  match interests.head? with
  | some s => if s = "" then "attraction" else s
  | none => "attraction"

/-- The fallback reasoning string of `generateFallbackRecommendations`. -/
def fallbackReasoning (intent : TravelIntent) : String :=
  "I don\x27t have specific success patterns for " ++ intent.destination ++
    " yet, but this is a popular choice for " ++
    String.intercalate " and " intent.interests ++ " enthusiasts."

/-- The synthetic venue built by `generateFallbackRecommendations`. -/
def fallbackVenue (intent : TravelIntent) : Venue :=
  { name := "Top " ++ primaryInterest intent.interests ++ " in " ++ intent.destination
    type := primaryInterest intent.interests
    address := none
    priceRange := getBudgetRange intent.budgetTier
    bookingMethod := "online"
    rating := 4
    specialNotes := ["Popular with travelers", "Recommended for first-time visitors"] }

/-- Models `generateFallbackRecommendations(intent)`. -/
def generateFallbackRecommendations (intent : TravelIntent) : TravelRecommendation :=
  { venues := [fallbackVenue intent]
    confidence := 3/10
    reasoning := fallbackReasoning intent
    localTips := ["Consider booking in advance", "Check local weather conditions"]
    alternatives := [] }

/-- The de-duplication key of `deduplicateVenues`:
``` `${venue.name.toLowerCase()}_${venue.type}` ```. -/
def venueKey (v : Venue) : String := lowerStr v.name ++ "_" ++ v.type

def deduplicateVenuesAux (seen : List String) : List Venue → List Venue
  | [] => []
  | v :: rest =>
    if seen.contains (venueKey v) then deduplicateVenuesAux seen rest
    else v :: deduplicateVenuesAux (venueKey v :: seen) rest

/-- Models `deduplicateVenues(venues)`: keep the first occurrence of each
string key `lowercase(name) ++ "_" ++ type`. -/
def deduplicateVenues (venues : List Venue) : List Venue :=
  deduplicateVenuesAux [] venues

/-- The venues of a retrieval hit, as read by
`const successPattern = pattern.content; successPattern.venues`.  The TS code
casts blindly; only pattern hits ever reach this read. -/
def contentVenues : RAGContent → List Venue
  | .successPattern p => p.venues
  | .languagePattern _ => []

/-- The `metadata.localInsights || []` of a retrieval hit. -/
def contentInsights : RAGContent → List String
  | .successPattern p => p.metadata.localInsights
  | .languagePattern _ => []

/-- Outcome of the completion call in `generateContextualResponse` modelled as
in `AIOutcome`: `.ok (some s)` a reasoning text, `.ok none` a response with
empty content (falls back via `||`), `.error` a thrown call (caught). -/
def contextualReasoning : Except String (Option String) → String
  | .ok (some s) => s
  | .ok none => "These venues have proven successful for similar travelers."
  | .error _ => "These recommendations are based on successful patterns from similar travelers."

/-- Models `patterns.reduce((sum, p) => sum + p.confidence, 0)`. -/
def sumConfidence (patterns : List RAGResult) : ℚ :=
  patterns.foldl (fun sum p => sum + p.confidence) 0

/-- Models `calculateRecommendationConfidence(patterns, venues)`. -/
def calculateRecommendationConfidence (patterns : List RAGResult)
    (venues : List Venue) : ℚ :=
  if patterns.length = 0 ∨ venues.length = 0 then 3/10
  else
    let avgPatternConfidence := sumConfidence patterns / patterns.length
    let venueBonus := min ((venues.length : ℚ) / 5) 1 * (2/10)
    min (avgPatternConfidence + venueBonus) 1

/-- Models `calculateOverallConfidence(intent, patterns, recommendations)`. -/
def calculateOverallConfidence (intent : TravelIntent) (patterns : List RAGResult)
    (recommendations : TravelRecommendation) : ℚ :=
  let intentConfidence := intent.confidence
  let patternConfidence :=
    if patterns.length > 0 then sumConfidence patterns / patterns.length else 3/10
  let recommendationConfidence := recommendations.confidence
  intentConfidence * (3/10) + patternConfidence * (4/10) + recommendationConfidence * (3/10)

/-- Models `generateRecommendations(intent, successPatterns, originalQuery)`;
the completion call for the reasoning text is passed as an outcome argument. -/
def generateRecommendations (intent : TravelIntent) (successPatterns : List RAGResult)
    (reasoningOutcome : Except String (Option String)) : TravelRecommendation :=
  if successPatterns.length = 0 then generateFallbackRecommendations intent
  else
    let top := successPatterns.take 3
    let allVenues := (top.map fun p => contentVenues p.content).flatten
    let localTips := (top.map fun p => contentInsights p.content).flatten
    let uniqueVenues := deduplicateVenues allVenues
    let topVenues := uniqueVenues.take 5
    { venues := topVenues
      confidence := calculateRecommendationConfidence successPatterns topVenues
      reasoning := contextualReasoning reasoningOutcome
      localTips := (dedupStrings localTips).take 5
      alternatives := (uniqueVenues.drop 5).take 3 }

/-! ### Spec-side comparison definition for venue de-duplication

The spec (§3) defines venue identity by the PAIR
`(lowercase(name), type)`; the following definitions follow the words of the
spec and exist only to be compared with the string-key
`deduplicateVenues` above. -/

/-- The venue identity key of spec §3: the pair `(lowercase(name), type)`. -/
def specVenueKey (v : Venue) : String × String := (lowerStr v.name, v.type)

def specDeduplicateVenuesAux (seen : List (String × String)) : List Venue → List Venue
  | [] => []
  | v :: rest =>
    if seen.contains (specVenueKey v) then specDeduplicateVenuesAux seen rest
    else v :: specDeduplicateVenuesAux (specVenueKey v :: seen) rest

/-- De-duplication exactly as the spec words it: first occurrence per
`(lowercase(name), type)` pair. -/
def specDeduplicateVenues (venues : List Venue) : List Venue :=
  specDeduplicateVenuesAux [] venues

/-! ### Day planner (`src/core/affiliate-engine.ts`, class `DayPlanner`) -/

structure Coordinates where
  lat : ℚ
  lng : ℚ
deriving DecidableEq

structure Activity where
  name : String
  type : String
  address : String
  duration : ℚ
  price : String
  openTime : Option String
  closeTime : Option String
  coordinates : Option Coordinates
deriving DecidableEq

/-- A slot of the day plan.  The `affiliateLink` field of the source is
affiliate-link policy, an excluded collaborator (spec §1), and is omitted. -/
structure TimeSlot where
  time : String
  activity : Activity
  travelTime : Option ℚ
  tips : List String
deriving DecidableEq

structure DayPlan where
  date : String
  dayOfWeek : String
  slots : List TimeSlot
  totalCost : String
  walkingDistance : ℚ
  warnings : List String
deriving DecidableEq

/-- Budget union of the `createDayPlan` preferences (low, medium, high). -/
inductive PlannerBudget
  | low | medium | high
deriving DecidableEq

structure Preferences where
  pace : Pace
  budget : PlannerBudget
  interests : List String
  groupType : GroupType
deriving DecidableEq

/-- An entry of the pace template: a `(time, slotType)` pair. -/
structure ScheduleEntry where
  time : String
  type : String
deriving DecidableEq

/-- Models `getScheduleTemplate(pace)`. -/
def getScheduleTemplate : Pace → List ScheduleEntry
  | .relaxed =>
    [⟨"09:30", "breakfast"⟩, ⟨"11:00", "morning_activity"⟩, ⟨"13:30", "lunch"⟩,
     ⟨"15:30", "afternoon_activity"⟩, ⟨"17:30", "coffee"⟩, ⟨"19:30", "dinner"⟩,
     ⟨"22:00", "evening_activity"⟩]
  | .moderate =>
    [⟨"09:00", "breakfast"⟩, ⟨"10:30", "morning_activity"⟩, ⟨"13:00", "lunch"⟩,
     ⟨"14:30", "afternoon_activity"⟩, ⟨"17:00", "coffee"⟩, ⟨"19:00", "dinner"⟩,
     ⟨"21:30", "evening_activity"⟩, ⟨"23:30", "nightlife"⟩]
  | .intensive =>
    [⟨"08:00", "breakfast"⟩, ⟨"09:30", "morning_activity"⟩, ⟨"12:00", "quick_lunch"⟩,
     ⟨"13:00", "afternoon_activity_1"⟩, ⟨"15:30", "afternoon_activity_2"⟩,
     ⟨"17:30", "coffee"⟩, ⟨"19:00", "dinner"⟩, ⟨"21:00", "evening_activity"⟩,
     ⟨"23:00", "nightlife"⟩, ⟨"02:00", "late_night_food"⟩]

/-- The Sakamoto day-of-week formula, `0 = Sunday`, matching
`new Date(...).getDay()` for a UTC-interpreted well-formed date. -/
def sakamotoDay (y m d : Nat) : Nat :=
  let t := [0, 3, 2, 5, 0, 3, 5, 1, 4, 6, 2, 4]
  let y := if m < 3 then y - 1 else y
  (y + y / 4 - y / 100 + y / 400 + t.getD (m - 1) 0 + d) % 7

/-- Models `getDayOfWeek(date)`:
indexing the day-name array by `new Date(date).getDay()`.  A malformed date gives
`days[NaN] = undefined` in JS; the embedding returns `"Sunday"` there, and no
claim depends on the value at malformed dates. -/
def getDayOfWeek (date : String) : String :=
  let days := ["Sunday", "Monday", "Tuesday", "Wednesday", "Thursday", "Friday", "Saturday"]
  match (splitOnChar '-' date.data).map numberJS with
  | some y :: some m :: some d :: _ => days.getD (sakamotoDay y m d) "Sunday"
  | _ => "Sunday"

/-- The hard-coded special case of `isOpenAt`: Berghain is closed on
Mondays regardless of its stated hours. -/
def berghainMondayClosed (activity : Activity) (dayOfWeek : String) : Bool :=
  strIncludes (lowerStr activity.name) "berghain" && dayOfWeek == "Monday"

/-- Models `isOpenAt(activity, time, dayOfWeek)`.  The JS guard
`if (!activity.openTime || !activity.closeTime) return true` is also taken
when a stated hour is the empty string, which is falsy in JS; the inner
`if` mirrors that. -/
def isOpenAt (activity : Activity) (time : String) (dayOfWeek : String) : Bool :=
  if berghainMondayClosed activity dayOfWeek then false
  else
    match activity.openTime, activity.closeTime with
    | some openTime, some closeTime =>
      if openTime = "" ∨ closeTime = "" then true
      else
        let timeMin := timeToMinutes time
        let openMin := timeToMinutes openTime
        let closeMin := timeToMinutes closeTime
        if closeMin < openMin then decide (openMin ≤ timeMin) || decide (timeMin ≤ closeMin)
        else decide (openMin ≤ timeMin) && decide (timeMin ≤ closeMin)
    | _, _ => true

/-- Models `matchesBudget(activity, budget)`. -/
def matchesBudget (activity : Activity) (budget : PlannerBudget) : Bool :=
  let price := lowerStr activity.price
  match budget with
  | .low =>
    strIncludes price "free" || strIncludes price "€5" || strIncludes price "€10" ||
      strIncludes price "€15" || strIncludes price "budget"
  | .medium =>
    !(strIncludes price "€100") && !(strIncludes price "€200") && !(strIncludes price "luxury")
  | .high => true

/-- Models `scoreActivity(activity, interests)`: 10 points per interest
keyword found in the type or name of the activity. -/
def scoreActivity (activity : Activity) (interests : List String) : Nat :=
  interests.foldl
    (fun score interest =>
      if strIncludes (lowerStr activity.type) (lowerStr interest) ||
          strIncludes (lowerStr activity.name) (lowerStr interest)
      then score + 10 else score)
    0

/-- The suitability filter of `selectBestActivity` (slot-type compatibility,
open-hours check, budget check). -/
def suitableFor (slotType : String) (preferences : Preferences) (dayOfWeek time : String)
    (activity : Activity) : Bool :=
  if strIncludes slotType "breakfast" && !(strIncludes activity.type "breakfast") &&
      !(strIncludes activity.type "cafe") then false
  else if strIncludes slotType "lunch" && !(strIncludes activity.type "restaurant") &&
      !(strIncludes activity.type "lunch") then false
  else if strIncludes slotType "dinner" && !(strIncludes activity.type "restaurant") &&
      !(strIncludes activity.type "dinner") then false
  else if strIncludes slotType "coffee" && !(strIncludes activity.type "cafe") &&
      !(strIncludes activity.type "coffee") then false
  else if strIncludes slotType "nightlife" && !(strIncludes activity.type "club") &&
      !(strIncludes activity.type "bar") then false
  else if !(isOpenAt activity time dayOfWeek) then false
  else if !(matchesBudget activity preferences.budget) then false
  else true

/-- The comparator `(a, b) => bScore - aScore` of `selectBestActivity` as a
relation: `a` may precede `b` iff `score b ≤ score a` (descending score). -/
def scoreDescLE (interests : List String) (a b : Activity) : Prop :=
  scoreActivity b interests ≤ scoreActivity a interests

instance (interests : List String) : DecidableRel (scoreDescLE interests) :=
  fun _ _ => Nat.decLe _ _

instance (interests : List String) : IsTotal Activity (scoreDescLE interests) :=
  ⟨fun _ _ => Nat.le_total _ _⟩

instance (interests : List String) : IsTrans Activity (scoreDescLE interests) :=
  ⟨fun _ _ _ h h' => Nat.le_trans h' h⟩

/-- Models `selectBestActivity(slotType, availableActivities, preferences,
dayOfWeek, time)`: filter to suitable activities, stable-sort descending by
interest score, return the first survivor (or `null`). -/
def selectBestActivity (slotType : String) (availableActivities : List Activity)
    (preferences : Preferences) (dayOfWeek : String) (time : String) : Option Activity :=
  let suitable := availableActivities.filter
    (suitableFor slotType preferences dayOfWeek time)
  (suitable.insertionSort (scoreDescLE preferences.interests)).head?

/-- Models `generateTips(activity, time)`. -/
def generateTips (activity : Activity) (time : String) : List String :=
  let hour := hourOf time
  (if strIncludes activity.type "restaurant" then
    (if 12 ≤ hour ∧ hour ≤ 14 then ["Lunch rush - reservation recommended"] else []) ++
      (if 19 ≤ hour ∧ hour ≤ 21 then
        ["Peak dinner time - expect wait without reservation"] else [])
  else []) ++
  (if strIncludes activity.type "club" then
    (if strIncludes (lowerStr activity.name) "berghain" then
      ["Dress code: Black/techno style", "Don\x27t be too drunk or too sober",
       "Go in small groups or alone", "Rejection is common - have backup plan"]
    else ["Check dress code in advance"])
  else []) ++
  (if strIncludes activity.type "museum" then
    ["Audio guide available"] ++
      (if 10 ≤ hour ∧ hour ≤ 16 then ["Peak hours - skip-the-line ticket worth it"] else [])
  else []) ++
  (if strIncludes activity.type "cafe" then
    ["Good wifi for remote work", "Power outlets available"]
  else [])

/-- Models `createTimeSlot(time, activity)` (without the omitted affiliate
link). -/
def createTimeSlot (time : String) (activity : Activity) : TimeSlot :=
  { time := time, activity := activity, travelTime := none
    tips := generateTips activity time }

/-- The fill loop of `createDayPlan`: for each template entry whose time is
not yet planned, select the best activity and, when one exists, place it and
mark the time as planned. -/
def fillSlots (schedule : List ScheduleEntry) (availableActivities : List Activity)
    (preferences : Preferences) (dayOfWeek : String) (plannedTimes : List String) :
    List TimeSlot :=
  match schedule with
  | [] => []
  | e :: rest =>
    if plannedTimes.contains e.time then
      fillSlots rest availableActivities preferences dayOfWeek plannedTimes
    else
      match selectBestActivity e.type availableActivities preferences dayOfWeek e.time with
      | some activity =>
        createTimeSlot e.time activity ::
          fillSlots rest availableActivities preferences dayOfWeek (e.time :: plannedTimes)
      | none => fillSlots rest availableActivities preferences dayOfWeek plannedTimes

/-- Models `estimateDistance(from, to)` in km.  The haversine branch uses
`Math.sin`/`cos`/`atan2` on floats, which a rational shallow embedding cannot
express; it is passed in as the function argument `haversine`, and every
theorem below holds for all such functions. -/
def estimateDistance (haversine : Coordinates → Coordinates → ℚ)
    (a b : Activity) : ℚ :=
  match a.coordinates, b.coordinates with
  | some c1, some c2 => haversine c1 c2
  | _, _ =>
    if strIncludes a.address "Mitte" && strIncludes b.address "Mitte" then 15/10
    else if strIncludes a.address "Kreuzberg" && strIncludes b.address "Kreuzberg" then 1
    else 3

/-- Models `estimateTravelTime(distance)`:
`Math.ceil((distance / 4) * 60) + 5` (walking at 4 km/h plus buffer). -/
def estimateTravelTime (distance : ℚ) : ℚ :=
  ((Rat.ceil (distance / 4 * 60) : ℤ) : ℚ) + 5

def addTravelTimesGo (haversine : Coordinates → Coordinates → ℚ)
    (prev : TimeSlot) : List TimeSlot → List TimeSlot
  | [] => []
  | s :: rest =>
    let t := estimateTravelTime (estimateDistance haversine prev.activity s.activity)
    let s' := { s with travelTime := some t }
    s' :: addTravelTimesGo haversine s' rest

/-- Models `addTravelTimes(slots)`: every slot after the first gets the
travel time from the activity of the previous slot. -/
def addTravelTimes (haversine : Coordinates → Coordinates → ℚ) :
    List TimeSlot → List TimeSlot
  | [] => []
  | s :: rest => s :: addTravelTimesGo haversine s rest

/-- The `for (let i = 1; ...)` timing-conflict loop of `generateWarnings`. -/
def timingWarnings : List TimeSlot → List String
  | [] => []
  | [_] => []
  | a :: b :: rest =>
    let prevEnd := (timeToMinutes a.time : ℚ) + a.activity.duration
    let nextStart := (timeToMinutes b.time : ℚ)
    let travelTime := b.travelTime.getD 0
    (if nextStart < prevEnd + travelTime then
      ["Tight timing between " ++ a.activity.name ++ " and " ++ b.activity.name]
    else []) ++ timingWarnings (b :: rest)

/-- Models `generateWarnings(slots, dayOfWeek)`. -/
def generateWarnings (slots : List TimeSlot) (dayOfWeek : String) : List String :=
  (if dayOfWeek = "Monday" ∧ slots.any (fun s => strIncludes s.activity.type "museum") then
    ["Many museums closed on Mondays - verify opening hours"] else []) ++
  (if dayOfWeek = "Sunday" ∧ slots.any (fun s => strIncludes s.activity.type "shop") then
    ["Many shops closed on Sundays in Germany"] else []) ++
  timingWarnings slots ++
  (if slots.any (fun s => strIncludes s.activity.type "park" ||
      strIncludes s.activity.type "market" || strIncludes s.activity.type "outdoor") then
    ["Check weather forecast for outdoor activities"] else [])

/-- Models `calculateTotalCost(slots)`: sum the first `/€(\d+)/` token of the
price of each slot (no match contributes nothing) and render with a euro
sign prefix. -/
def calculateTotalCost (slots : List TimeSlot) : String :=
  "€" ++ toString (slots.foldl
    (fun total s =>
      match euroToken s.activity.price.data with
      | some n => total + n
      | none => total)
    0)

/-- Models `Math.round` for the non-negative totals the source produces. -/
def mathRound (q : ℚ) : ℤ := Rat.floor (q + 1/2)

def walkingDistanceSum (haversine : Coordinates → Coordinates → ℚ)
    (prev : TimeSlot) : List TimeSlot → ℚ
  | [] => 0
  | s :: rest =>
    estimateDistance haversine prev.activity s.activity +
      walkingDistanceSum haversine s rest

/-- Models `calculateWalkingDistance(slots)`:
`Math.round(total * 10) / 10`. -/
def calculateWalkingDistance (haversine : Coordinates → Coordinates → ℚ) :
    List TimeSlot → ℚ
  | [] => ((mathRound (0 * 10) : ℤ) : ℚ) / 10
  | s :: rest => ((mathRound (walkingDistanceSum haversine s rest * 10) : ℤ) : ℚ) / 10

/-- The slot ordering of `slots.sort((a, b) => timeToMinutes(a.time) -
timeToMinutes(b.time))`. -/
def slotLE (a b : TimeSlot) : Prop := timeToMinutes a.time ≤ timeToMinutes b.time

instance : DecidableRel slotLE := fun _ _ => Nat.decLe _ _

instance : IsTotal TimeSlot slotLE := ⟨fun _ _ => Nat.le_total _ _⟩

instance : IsTrans TimeSlot slotLE := ⟨fun _ _ _ => Nat.le_trans⟩

/-- Models `createDayPlan(date, availableActivities, fixedBookings,
preferences)`. -/
def createDayPlan (haversine : Coordinates → Coordinates → ℚ) (date : String)
    (availableActivities : List Activity) (fixedBookings : List TimeSlot)
    (preferences : Preferences) : DayPlan :=
  let dayOfWeek := getDayOfWeek date
  let schedule := getScheduleTemplate preferences.pace
  let plannedTimes := fixedBookings.map (·.time)
  let filled := fillSlots schedule availableActivities preferences dayOfWeek plannedTimes
  let slots := fixedBookings ++ filled
  let sorted := slots.insertionSort slotLE
  let withTravel := addTravelTimes haversine sorted
  { date := date
    dayOfWeek := dayOfWeek
    slots := withTravel
    totalCost := calculateTotalCost withTravel
    walkingDistance := calculateWalkingDistance haversine withTravel
    warnings := generateWarnings withTravel dayOfWeek }

/-! ### Concrete inputs used by witnesses and counterexamples -/

/-- Distance function for concrete plans: no activity below carries
coordinates, so the value is irrelevant. -/
def hav0 : Coordinates → Coordinates → ℚ := fun _ _ => 0

def cafeAct : Activity :=
  { name := "Corner Cafe", type := "cafe", address := "Mitte", duration := 60,
    price := "€10", openTime := none, closeTime := none, coordinates := none }

def clubAct : Activity :=
  { name := "Some Club", type := "club", address := "Friedrichshain", duration := 240,
    price := "€20", openTime := some "23:00", closeTime := some "06:00", coordinates := none }

def berghainAct : Activity := { clubAct with name := "Berghain" }

def prefsR : Preferences :=
  { pace := .relaxed, budget := .medium, interests := [], groupType := .solo }

def fb1 : TimeSlot := { time := "09:00", activity := cafeAct, travelTime := none, tips := [] }

def fb2 : TimeSlot :=
  { time := "09:00", activity := { cafeAct with name := "Other Cafe" },
    travelTime := none, tips := [] }

def vA : Venue :=
  { name := "a_b", type := "c", address := none, priceRange := "€10",
    bookingMethod := "online", rating := 4, specialNotes := [] }

def vB : Venue :=
  { name := "a", type := "b_c", address := none, priceRange := "€10",
    bookingMethod := "online", rating := 4, specialNotes := [] }

def sp1 : SuccessPattern :=
  { id := "p1", destination := "berlin", category := "club",
    venues := [vA, vB], budgetTier := none, successRate := 1, userSatisfaction := 5,
    metadata := { source := none, bookingPattern := "", localInsights := ["tip one"] } }

def rag1 : RAGResult := { content := .successPattern sp1, confidence := 7/10, source := "s" }

def intentB : TravelIntent :=
  { destination := "berlin", dates := none, interests := [], budgetTier := .medium,
    groupType := .solo, pace := .moderate, originalText := "", confidence := 1/2 }

def lp1 : LanguagePattern :=
  { id := "l1", intent := "budget_expression", phrases := ["broke students"],
    confidence := 9/10, mapsTo := { budgetTier := some .low } }

def pm1 : PatternMatch := { score := 7/10, metadata := sp1, source := none }

def fm1 : PhraseMatch := { score := 7/10, metadata := lp1 }

/-! ### Helper lemmas -/

theorem isPrefixChars_self_append (l t : List Char) : isPrefixChars l (l ++ t) = true := by
  induction l with
  | nil => rfl
  | cons a as ih => simp [isPrefixChars, ih]

theorem occursIn_nil_left (t : List Char) : occursIn [] t = true := by
  cases t with
  | nil => rfl
  | cons c r => simp [occursIn, isPrefixChars]

theorem occursIn_self_append (sub t : List Char) : occursIn sub (sub ++ t) = true := by
  cases sub with
  | nil => exact occursIn_nil_left t
  | cons a as => simp [occursIn, isPrefixChars_self_append, isPrefixChars]

theorem sumConfidence_foldl (patterns : List RAGResult) :
    ∀ s : ℚ, patterns.foldl (fun sum p => sum + p.confidence) s =
      s + (patterns.map fun p => p.confidence).sum := by
  induction patterns with
  | nil => intro s; simp
  | cons p rest ih => intro s; simp [List.foldl_cons, ih, add_assoc]

theorem sumConfidence_eq (patterns : List RAGResult) :
    sumConfidence patterns = (patterns.map fun p => p.confidence).sum := by
  simpa using sumConfidence_foldl patterns 0

theorem deduplicateVenuesAux_sublist (l : List Venue) :
    ∀ seen, (deduplicateVenuesAux seen l).Sublist l := by
  induction l with
  | nil => intro seen; simp [deduplicateVenuesAux]
  | cons v rest ih =>
    intro seen
    by_cases h : seen.contains (venueKey v)
    · simp only [deduplicateVenuesAux, if_pos h]
      exact (ih seen).cons v
    · simp only [deduplicateVenuesAux, if_neg h]
      exact (ih (venueKey v :: seen)).cons₂ v

theorem deduplicateVenuesAux_keys (l : List Venue) :
    ∀ seen, (((deduplicateVenuesAux seen l).map venueKey).Nodup ∧
      ∀ v ∈ deduplicateVenuesAux seen l, venueKey v ∉ seen) := by
  induction l with
  | nil => intro seen; simp [deduplicateVenuesAux]
  | cons v rest ih =>
    intro seen
    by_cases h : seen.contains (venueKey v)
    · simp only [deduplicateVenuesAux, if_pos h]
      exact ih seen
    · simp only [deduplicateVenuesAux, if_neg h, List.map_cons, List.nodup_cons]
      have hmem : venueKey v ∉ seen := by
        simpa using h
      refine ⟨⟨?_, (ih (venueKey v :: seen)).1⟩, ?_⟩
      · intro hk
        rcases List.mem_map.mp hk with ⟨u, hu, hku⟩
        have := (ih (venueKey v :: seen)).2 u hu
        exact this (by simp [hku])
      · intro u hu
        rcases List.mem_cons.mp hu with rfl | hu'
        · exact hmem
        · have := (ih (venueKey v :: seen)).2 u hu'
          intro hin
          exact this (List.mem_cons_of_mem _ hin)

theorem deduplicateVenues_sublist (l : List Venue) : (deduplicateVenues l).Sublist l :=
  deduplicateVenuesAux_sublist l []

theorem deduplicateVenues_keys_nodup (l : List Venue) :
    ((deduplicateVenues l).map venueKey).Nodup :=
  (deduplicateVenuesAux_keys l []).1

/-! ### C1 — extractIntent failure behaviour -/

/-- C1 (counterexample): a failure of the phrase-pattern lookup
(`queryLanguagePatterns`) is NOT caught by `extractIntent`; it propagates
instead of degrading, contradicting the claim that any internal collaborator
failure yields a degraded intent. -/
theorem extractIntent_phrase_failure_propagates :
    extractIntent (Except.error "index unavailable") (Except.ok none) "berlin clubs" =
      Except.error "index unavailable" := rfl

/-- C1 (amended): when the phrase-pattern lookup succeeds, `extractIntent`
never throws, whatever the completion client does — it returns an intent whose
confidence is at least the 0.5 floor; but when the phrase-pattern lookup
fails, that error propagates unchanged. -/
theorem extractIntent_failure_behaviour :
    (∀ (userMessage : String) (patterns : List RAGResult) (ai : AIOutcome),
      ∃ intent, extractIntent (Except.ok patterns) ai userMessage = Except.ok intent ∧
        1/2 ≤ intent.confidence) ∧
    (∀ (userMessage : String) (ai : AIOutcome) (e : String),
      extractIntent (Except.error e) ai userMessage = Except.error e) := by
  constructor
  · intro userMessage patterns ai
    refine ⟨mergeIntents (extractWithAI ai) (extractFromPatterns userMessage patterns)
      userMessage, rfl, ?_⟩
    exact le_max_right _ _
  · intro userMessage ai e
    rfl

/-! ### C2 — merged confidence formula and floor -/

/-- C2: the merged confidence is exactly
`max(aiConfidence, patternConfidence, 0.5)` and, whenever both input
confidences are at most 1 (their documented range), the result lies in
`[0.5, 1]`. -/
theorem mergeIntents_confidence (aiIntent patternIntent : PartialIntent)
    (originalText : String)
    (hai : aiIntent.confidence.getD 0 ≤ 1)
    (hpat : patternIntent.confidence.getD 0 ≤ 1) :
    (mergeIntents aiIntent patternIntent originalText).confidence =
      max (max (aiIntent.confidence.getD 0) (patternIntent.confidence.getD 0)) (1/2) ∧
    1/2 ≤ (mergeIntents aiIntent patternIntent originalText).confidence ∧
    (mergeIntents aiIntent patternIntent originalText).confidence ≤ 1 := by
  refine ⟨rfl, le_max_right _ _, ?_⟩
  have h2 : (1/2 : ℚ) ≤ 1 := by norm_num
  exact max_le (max_le hai hpat) h2

/-- Witness for C2 at the empty AI guess and empty pattern guess. -/
theorem mergeIntents_confidence_witness :
    (({} : PartialIntent).confidence.getD 0 ≤ 1) ∧
    ((mergeIntents {} {} "berlin clubs").confidence =
        max (max (({} : PartialIntent).confidence.getD 0)
          (({} : PartialIntent).confidence.getD 0)) (1/2) ∧
      1/2 ≤ (mergeIntents {} {} "berlin clubs").confidence ∧
      (mergeIntents {} {} "berlin clubs").confidence ≤ 1) :=
  ⟨by norm_num, mergeIntents_confidence {} {} "berlin clubs" (by norm_num) (by norm_num)⟩

/-! ### C3 — empty-pattern fallback recommendation -/

/-- C3: with an empty pattern list the engine returns exactly the synthetic
fallback: a single venue priced by the fixed budget-tier table, confidence
exactly 0.3, and a reasoning string that literally begins with the fixed text
stating no success patterns exist for the destination. -/
theorem generateRecommendations_empty_fallback (intent : TravelIntent)
    (reasoningOutcome : Except String (Option String)) :
    generateRecommendations intent [] reasoningOutcome =
        generateFallbackRecommendations intent ∧
    (generateRecommendations intent [] reasoningOutcome).venues = [fallbackVenue intent] ∧
    (generateRecommendations intent [] reasoningOutcome).confidence = 3/10 ∧
    (generateRecommendations intent [] reasoningOutcome).reasoning =
      fallbackReasoning intent ∧
    strIncludes (fallbackReasoning intent)
      "I don\x27t have specific success patterns for " = true ∧
    (fallbackVenue intent).priceRange = getBudgetRange intent.budgetTier ∧
    getBudgetRange .low = "€5-20" ∧ getBudgetRange .medium = "€20-50" ∧
    getBudgetRange .high = "€50-100" ∧ getBudgetRange .luxury = "€100+" := by
  refine ⟨rfl, rfl, rfl, rfl, ?_, rfl, rfl, rfl, rfl, rfl⟩
  show occursIn _ _ = true
  have : (fallbackReasoning intent).data =
      "I don\x27t have specific success patterns for ".data ++
        (intent.destination ++ " yet, but this is a popular choice for " ++
          String.intercalate " and " intent.interests ++ " enthusiasts.").data := by
    simp [fallbackReasoning, ← String.append_assoc]
  rw [this]
  exact occursIn_self_append _ _

/-! ### C4 — fused recommendation shape -/

/-- C4 (counterexample): the source de-duplicates by the concatenated string
`lowercase(name) ++ "_" ++ type`, not by the pair `(lowercase(name), type)`.
The venues `("a_b", "c")` and `("a", "b_c")` have distinct pair keys, yet the
code collapses them to one entry, so the fused primary list differs from the
claimed pair-deduplicated one. -/
theorem generateRecommendations_dedup_key_counterexample :
    ((generateRecommendations intentB [rag1] (Except.ok none)).venues.map
      fun v => v.name) = ["a_b"] ∧
    (((specDeduplicateVenues
        ((([rag1].take 3).map fun p => contentVenues p.content).flatten)).take 5).map
      fun v => v.name) = ["a_b", "a"] ∧
    specVenueKey vA ≠ specVenueKey vB := by
  refine ⟨by decide, by decide, by decide⟩

/-- C4 (amended): for a non-empty pattern list the fused recommendation
flattens the venues of the first 3 patterns in retrieval order, removes
duplicates under the string key `lowercase(name) ++ "_" ++ type` keeping the
first occurrence, returns the first 5 survivors as the primary list and the
next 3 as alternatives, and de-duplicates local tips truncated to at most
5. -/
theorem generateRecommendations_nonempty (intent : TravelIntent)
    (patterns : List RAGResult) (reasoningOutcome : Except String (Option String))
    (h : patterns ≠ []) :
    (generateRecommendations intent patterns reasoningOutcome).venues =
      (deduplicateVenues
        (((patterns.take 3).map fun p => contentVenues p.content).flatten)).take 5 ∧
    (generateRecommendations intent patterns reasoningOutcome).alternatives =
      ((deduplicateVenues
        (((patterns.take 3).map fun p => contentVenues p.content).flatten)).drop 5).take 3 ∧
    (generateRecommendations intent patterns reasoningOutcome).localTips =
      (dedupStrings
        (((patterns.take 3).map fun p => contentInsights p.content).flatten)).take 5 ∧
    ((generateRecommendations intent patterns reasoningOutcome).venues).Sublist
      (((patterns.take 3).map fun p => contentVenues p.content).flatten) ∧
    (((generateRecommendations intent patterns reasoningOutcome).venues).map
      venueKey).Nodup ∧
    (generateRecommendations intent patterns reasoningOutcome).venues.length ≤ 5 ∧
    (generateRecommendations intent patterns reasoningOutcome).alternatives.length ≤ 3 ∧
    (generateRecommendations intent patterns reasoningOutcome).localTips.length ≤ 5 := by
  have hne : ¬ patterns.length = 0 := by
    simpa [List.length_eq_zero] using h
  simp only [generateRecommendations, if_neg hne]
  refine ⟨trivial, trivial, trivial, ?_, ?_, ?_, ?_, ?_⟩
  · exact (List.take_sublist _ _).trans (deduplicateVenues_sublist _)
  · exact (deduplicateVenues_keys_nodup _).sublist
      ((List.take_sublist _ _).map venueKey)
  · simp
  · simp
  · simp

/-- Witness for C4 (amended) at a one-pattern retrieval result. -/
theorem generateRecommendations_nonempty_witness :
    ((generateRecommendations intentB [rag1] (Except.ok none)).venues =
      (deduplicateVenues
        ((([rag1].take 3).map fun p => contentVenues p.content).flatten)).take 5 ∧
    (generateRecommendations intentB [rag1] (Except.ok none)).alternatives =
      ((deduplicateVenues
        ((([rag1].take 3).map fun p => contentVenues p.content).flatten)).drop 5).take 3 ∧
    (generateRecommendations intentB [rag1] (Except.ok none)).localTips =
      (dedupStrings
        ((([rag1].take 3).map fun p => contentInsights p.content).flatten)).take 5 ∧
    ((generateRecommendations intentB [rag1] (Except.ok none)).venues).Sublist
      ((([rag1].take 3).map fun p => contentVenues p.content).flatten) ∧
    (((generateRecommendations intentB [rag1] (Except.ok none)).venues).map
      venueKey).Nodup ∧
    (generateRecommendations intentB [rag1] (Except.ok none)).venues.length ≤ 5 ∧
    (generateRecommendations intentB [rag1] (Except.ok none)).alternatives.length ≤ 3 ∧
    (generateRecommendations intentB [rag1] (Except.ok none)).localTips.length ≤ 5) :=
  generateRecommendations_nonempty intentB [rag1] (Except.ok none) (by simp)

/-! ### C5 — confidence fusion arithmetic -/

/-- C5: the recommendation confidence is exactly
`min(avg(pattern scores) + min(venueCount/5, 1) * 0.2, 1)` with `0.3` when
there are no patterns or no venues, and the overall confidence is exactly
`0.3*intent + 0.4*avg(patternConfidence) + 0.3*recommendation`, the pattern
term standing in at `0.3` for an empty pattern list. -/
theorem confidence_fusion_exact (intent : TravelIntent) (patterns : List RAGResult)
    (venues : List Venue) (recommendations : TravelRecommendation) :
    calculateRecommendationConfidence patterns venues =
      (if patterns = [] ∨ venues = [] then 3/10
       else min ((patterns.map fun p => p.confidence).sum / patterns.length +
         min ((venues.length : ℚ) / 5) 1 * (2/10)) 1) ∧
    calculateOverallConfidence intent patterns recommendations =
      (3/10) * intent.confidence +
        (4/10) * (if patterns = [] then 3/10
          else (patterns.map fun p => p.confidence).sum / patterns.length) +
        (3/10) * recommendations.confidence := by
  constructor
  · simp only [calculateRecommendationConfidence, sumConfidence_eq,
      List.length_eq_zero]
  · simp only [calculateOverallConfidence, sumConfidence_eq]
    by_cases h : patterns = []
    · simp [h, List.length_pos, mul_comm]
    · have : patterns.length > 0 := List.length_pos.mpr h
      simp only [if_pos this, if_neg h]
      ring

/-! ### C6 — retrieval thresholds and ordering -/

/-- C6: retrieval never returns a result below the applicable threshold — the
configurable pattern threshold for the pattern collection and the fixed 0.6
phrase threshold for the phrase collection — and both queries return a
sub-sequence of the index hits, preserving descending-similarity order
whenever the answer of the index is so ordered. -/
theorem retrieval_threshold_and_order (pHits : List PatternMatch)
    (fHits : List PhraseMatch) (confidenceThreshold : ℚ)
    (hp : (pHits.map fun m => m.score).Pairwise fun a b => b ≤ a)
    (hf : (fHits.map fun m => m.score).Pairwise fun a b => b ≤ a) :
    (∀ r ∈ querySuccessPatterns pHits confidenceThreshold,
      confidenceThreshold ≤ r.confidence) ∧
    ((querySuccessPatterns pHits confidenceThreshold).map fun r => r.confidence).Sublist
      (pHits.map fun m => m.score) ∧
    (((querySuccessPatterns pHits confidenceThreshold).map
      fun r => r.confidence).Pairwise fun a b => b ≤ a) ∧
    (∀ r ∈ queryLanguagePatterns fHits, (6 : ℚ)/10 ≤ r.confidence) ∧
    ((queryLanguagePatterns fHits).map fun r => r.confidence).Sublist
      (fHits.map fun m => m.score) ∧
    (((queryLanguagePatterns fHits).map fun r => r.confidence).Pairwise
      fun a b => b ≤ a) := by
  have hpmap : ((querySuccessPatterns pHits confidenceThreshold).map
      fun r => r.confidence) =
      ((pHits.filter fun m => decide (confidenceThreshold ≤ m.score)).map
        fun m => m.score) := by
    simp [querySuccessPatterns, List.map_map, Function.comp]
  have hfmap : ((queryLanguagePatterns fHits).map fun r => r.confidence) =
      ((fHits.filter fun m => decide ((6 : ℚ)/10 ≤ m.score)).map
        fun m => m.score) := by
    simp [queryLanguagePatterns, List.map_map, Function.comp]
  have hpsub : ((querySuccessPatterns pHits confidenceThreshold).map
      fun r => r.confidence).Sublist (pHits.map fun m => m.score) := by
    rw [hpmap]
    exact (List.filter_sublist pHits).map _
  have hfsub : ((queryLanguagePatterns fHits).map fun r => r.confidence).Sublist
      (fHits.map fun m => m.score) := by
    rw [hfmap]
    exact (List.filter_sublist fHits).map _
  refine ⟨?_, hpsub, hp.sublist hpsub, ?_, hfsub, hf.sublist hfsub⟩
  · intro r hr
    rcases List.mem_map.mp hr with ⟨m, hm, rfl⟩
    have := List.of_mem_filter hm
    exact of_decide_eq_true this
  · intro r hr
    rcases List.mem_map.mp hr with ⟨m, hm, rfl⟩
    have := List.of_mem_filter hm
    exact of_decide_eq_true this

/-- Witness for C6 at singleton index answers, score 0.7, threshold 0.6. -/
theorem retrieval_threshold_and_order_witness :
    ((∀ r ∈ querySuccessPatterns [pm1] ((6 : ℚ)/10), (6 : ℚ)/10 ≤ r.confidence) ∧
    ((querySuccessPatterns [pm1] ((6 : ℚ)/10)).map fun r => r.confidence).Sublist
      ([pm1].map fun m => m.score) ∧
    (((querySuccessPatterns [pm1] ((6 : ℚ)/10)).map
      fun r => r.confidence).Pairwise fun a b => b ≤ a) ∧
    (∀ r ∈ queryLanguagePatterns [fm1], (6 : ℚ)/10 ≤ r.confidence) ∧
    ((queryLanguagePatterns [fm1]).map fun r => r.confidence).Sublist
      ([fm1].map fun m => m.score) ∧
    (((queryLanguagePatterns [fm1]).map fun r => r.confidence).Pairwise
      fun a b => b ≤ a)) :=
  retrieval_threshold_and_order [pm1] [fm1] ((6 : ℚ)/10) (by simp) (by simp)

/-! ### Helper lemmas for the day planner -/

/-- Every slot the fill loop produces comes from a template entry via
`selectBestActivity` applied to the full activity list. -/
theorem fillSlots_mem (availableActivities : List Activity) (preferences : Preferences)
    (dayOfWeek : String) (schedule : List ScheduleEntry) :
    ∀ (planned : List String) (s : TimeSlot),
      s ∈ fillSlots schedule availableActivities preferences dayOfWeek planned →
      ∃ e ∈ schedule, ∃ a,
        selectBestActivity e.type availableActivities preferences dayOfWeek e.time =
          some a ∧ s = createTimeSlot e.time a := by
  induction schedule with
  | nil => intro planned s hs; simp [fillSlots] at hs
  | cons e rest ih =>
    intro planned s hs
    cases hc : planned.contains e.time with
    | true =>
      rw [fillSlots] at hs
      rw [hc] at hs
      simp only [if_true] at hs
      rcases ih planned s hs with ⟨e', he', a, ha, hsa⟩
      exact ⟨e', List.mem_cons_of_mem _ he', a, ha, hsa⟩
    | false =>
      rw [fillSlots] at hs
      rw [hc] at hs
      simp only [Bool.false_eq_true, if_false] at hs
      cases hsel : selectBestActivity e.type availableActivities preferences
          dayOfWeek e.time with
      | none =>
        rw [hsel] at hs
        rcases ih planned s hs with ⟨e', he', a, ha, hsa⟩
        exact ⟨e', List.mem_cons_of_mem _ he', a, ha, hsa⟩
      | some a =>
        rw [hsel] at hs
        rcases List.mem_cons.mp hs with rfl | hs'
        · exact ⟨e, List.mem_cons_self _ _, a, hsel, rfl⟩
        · rcases ih (e.time :: planned) s hs' with ⟨e', he', a', ha', hsa'⟩
          exact ⟨e', List.mem_cons_of_mem _ he', a', ha', hsa'⟩

/-- The fill loop never schedules an already-planned time. -/
theorem fillSlots_not_planned (availableActivities : List Activity)
    (preferences : Preferences) (dayOfWeek : String) (schedule : List ScheduleEntry) :
    ∀ (planned : List String) (s : TimeSlot),
      s ∈ fillSlots schedule availableActivities preferences dayOfWeek planned →
      s.time ∉ planned := by
  induction schedule with
  | nil => intro planned s hs; simp [fillSlots] at hs
  | cons e rest ih =>
    intro planned s hs
    cases hc : planned.contains e.time with
    | true =>
      rw [fillSlots] at hs; rw [hc] at hs; simp only [if_true] at hs
      exact ih planned s hs
    | false =>
      rw [fillSlots] at hs; rw [hc] at hs
      simp only [Bool.false_eq_true, if_false] at hs
      cases hsel : selectBestActivity e.type availableActivities preferences
          dayOfWeek e.time with
      | none =>
        rw [hsel] at hs
        exact ih planned s hs
      | some a =>
        rw [hsel] at hs
        rcases List.mem_cons.mp hs with rfl | hs'
        · show e.time ∉ planned
          simpa using hc
        · have := ih (e.time :: planned) s hs'
          intro hmem
          exact this (List.mem_cons_of_mem _ hmem)

/-- The times of the filled slots are pairwise distinct. -/
theorem fillSlots_times_nodup (availableActivities : List Activity)
    (preferences : Preferences) (dayOfWeek : String) (schedule : List ScheduleEntry) :
    ∀ planned : List String,
      ((fillSlots schedule availableActivities preferences dayOfWeek planned).map
        fun s => s.time).Nodup := by
  induction schedule with
  | nil => intro planned; simp [fillSlots]
  | cons e rest ih =>
    intro planned
    cases hc : planned.contains e.time with
    | true =>
      rw [fillSlots]; rw [hc]; simp only [if_true]
      exact ih planned
    | false =>
      rw [fillSlots]; rw [hc]
      simp only [Bool.false_eq_true, if_false]
      cases hsel : selectBestActivity e.type availableActivities preferences
          dayOfWeek e.time with
      | none => exact ih planned
      | some a =>
        simp only [List.map_cons, List.nodup_cons]
        refine ⟨?_, ih (e.time :: planned)⟩
        intro hmem
        rcases List.mem_map.mp hmem with ⟨u, hu, htime⟩
        have := fillSlots_not_planned availableActivities preferences dayOfWeek rest
          (e.time :: planned) u hu
        refine this ?_
        rw [htime]
        exact List.mem_cons_self _ _

theorem addTravelTimesGo_map_pair (haversine : Coordinates → Coordinates → ℚ)
    (l : List TimeSlot) :
    ∀ prev, ((addTravelTimesGo haversine prev l).map fun s => (s.time, s.activity)) =
      l.map fun s => (s.time, s.activity) := by
  induction l with
  | nil => intro prev; rfl
  | cons s rest ih => intro prev; simp [addTravelTimesGo, ih]

/-- Adding travel times changes neither the time nor the activity of any
slot. -/
theorem addTravelTimes_map_pair (haversine : Coordinates → Coordinates → ℚ)
    (l : List TimeSlot) :
    ((addTravelTimes haversine l).map fun s => (s.time, s.activity)) =
      l.map fun s => (s.time, s.activity) := by
  cases l with
  | nil => rfl
  | cons s rest => simp [addTravelTimes, addTravelTimesGo_map_pair]

theorem addTravelTimes_map_time (haversine : Coordinates → Coordinates → ℚ)
    (l : List TimeSlot) :
    ((addTravelTimes haversine l).map fun s => s.time) = l.map fun s => s.time := by
  have h := congrArg (List.map Prod.fst) (addTravelTimes_map_pair haversine l)
  simpa [List.map_map, Function.comp] using h

/-! ### C7 — slot uniqueness, ordering, fixed bookings -/

/-- C7 (counterexample): two fixed bookings at the same stated time survive
into the plan unchanged, so the output contains two slots with the same time,
refuting the claim for arbitrary fixed-booking lists. -/
theorem createDayPlan_duplicate_fixed_counterexample :
    ((createDayPlan hav0 "2025-06-03" [] [fb1, fb2] prefsR).slots.map
      fun s => s.time) = ["09:00", "09:00"] ∧
    ¬ (((createDayPlan hav0 "2025-06-03" [] [fb1, fb2] prefsR).slots.map
      fun s => s.time).Nodup) := by
  refine ⟨by decide, by decide⟩

/-- C7 (amended): whenever the fixed bookings have pairwise-distinct times,
the plan contains no two slots with the same time; unconditionally, the slots
are monotonically non-decreasing in time, every fixed booking appears at its
stated time and activity, and no generated slot occupies the time of a fixed
booking. -/
theorem createDayPlan_slot_invariants (haversine : Coordinates → Coordinates → ℚ)
    (date : String) (availableActivities : List Activity)
    (fixedBookings : List TimeSlot) (preferences : Preferences) :
    ((fixedBookings.map fun b => b.time).Nodup →
      ((createDayPlan haversine date availableActivities fixedBookings
        preferences).slots.map fun s => s.time).Nodup) ∧
    ((createDayPlan haversine date availableActivities fixedBookings
      preferences).slots.Pairwise slotLE) ∧
    (∀ b ∈ fixedBookings,
      ∃ s ∈ (createDayPlan haversine date availableActivities fixedBookings
        preferences).slots, s.time = b.time ∧ s.activity = b.activity) ∧
    (∀ s ∈ fillSlots (getScheduleTemplate preferences.pace) availableActivities
        preferences (getDayOfWeek date) (fixedBookings.map fun b => b.time),
      s.time ∉ fixedBookings.map fun b => b.time) := by
  have hslots : (createDayPlan haversine date availableActivities fixedBookings
      preferences).slots =
      addTravelTimes haversine
        ((fixedBookings ++ fillSlots (getScheduleTemplate preferences.pace)
          availableActivities preferences (getDayOfWeek date)
          (fixedBookings.map fun b => b.time)).insertionSort slotLE) := rfl
  set filled := fillSlots (getScheduleTemplate preferences.pace) availableActivities
    preferences (getDayOfWeek date) (fixedBookings.map fun b => b.time) with hfilled
  set sorted := (fixedBookings ++ filled).insertionSort slotLE with hsorted
  have hperm : sorted.Perm (fixedBookings ++ filled) :=
    List.perm_insertionSort slotLE _
  have hmaps : ((createDayPlan haversine date availableActivities fixedBookings
      preferences).slots.map fun s => s.time) = sorted.map fun s => s.time := by
    rw [hslots]; exact addTravelTimes_map_time haversine sorted
  refine ⟨?_, ?_, ?_, ?_⟩
  · intro hnd
    rw [hmaps]
    have hpermt : (sorted.map fun s => s.time).Perm
        ((fixedBookings ++ filled).map fun s => s.time) := hperm.map _
    rw [hpermt.nodup_iff, List.map_append, List.nodup_append]
    refine ⟨hnd, fillSlots_times_nodup _ _ _ _ _, ?_⟩
    intro t htfix htfill
    rcases List.mem_map.mp htfill with ⟨u, hu, hut⟩
    have := fillSlots_not_planned availableActivities preferences (getDayOfWeek date)
      (getScheduleTemplate preferences.pace) (fixedBookings.map fun b => b.time) u hu
    rw [hut] at this
    exact this htfix
  · have hsortPW : sorted.Pairwise slotLE := List.sorted_insertionSort slotLE _
    have h1 : (sorted.map fun s => s.time).Pairwise
        (fun a b : String => timeToMinutes a ≤ timeToMinutes b) :=
      List.pairwise_map.mpr hsortPW
    rw [← hmaps] at h1
    exact (@List.pairwise_map _ _ (fun s : TimeSlot => s.time) _ _).mp h1
  · intro b hb
    have hpair : (b.time, b.activity) ∈
        ((createDayPlan haversine date availableActivities fixedBookings
          preferences).slots.map fun s => (s.time, s.activity)) := by
      rw [hslots, addTravelTimes_map_pair]
      have : (b.time, b.activity) ∈
          ((fixedBookings ++ filled).map fun s => (s.time, s.activity)) :=
        List.mem_map_of_mem _ (List.mem_append_left _ hb)
      exact (hperm.map fun s => (s.time, s.activity)).mem_iff.mpr this
    rcases List.mem_map.mp hpair with ⟨s, hs, hpairEq⟩
    exact ⟨s, hs, congrArg Prod.fst hpairEq, congrArg Prod.snd hpairEq⟩
  · intro s hs
    exact fillSlots_not_planned availableActivities preferences (getDayOfWeek date)
      (getScheduleTemplate preferences.pace) (fixedBookings.map fun b => b.time) s hs

/-- Witness for C7 (amended): one fixed booking at 09:00 and one available
cafe, relaxed pace. -/
theorem createDayPlan_slot_invariants_witness :
    (((createDayPlan hav0 "2025-06-03" [cafeAct] [fb1] prefsR).slots.map
      fun s => s.time).Nodup ∧
    ((createDayPlan hav0 "2025-06-03" [cafeAct] [fb1] prefsR).slots.Pairwise slotLE) ∧
    (∀ b ∈ [fb1],
      ∃ s ∈ (createDayPlan hav0 "2025-06-03" [cafeAct] [fb1] prefsR).slots,
        s.time = b.time ∧ s.activity = b.activity) ∧
    (∀ s ∈ fillSlots (getScheduleTemplate prefsR.pace) [cafeAct] prefsR
        (getDayOfWeek "2025-06-03") ([fb1].map fun b => b.time),
      s.time ∉ [fb1].map fun b => b.time)) := by
  obtain ⟨h1, h2, h3, h4⟩ :=
    createDayPlan_slot_invariants hav0 "2025-06-03" [cafeAct] [fb1] prefsR
  exact ⟨h1 (by simp), h2, h3, h4⟩

/-! ### C8 — open-hours rules -/

/-- C8: outside the hard-coded Berghain-Monday override (which the claim
itself makes take precedence), an activity with no stated hours — a missing
or JS-falsy empty open or close time — is open at every time; an overnight
venue (close numerically before open) is open at `t` iff `t ≥ open` or
`t ≤ close`, so any club with hours `23:00`–`06:00` is open at 01:00 and
closed at 12:00; and the Berghain-Monday override forces closed regardless of
the generic open-hours fields. -/
theorem isOpenAt_rules :
    (∀ (a : Activity) (time dayOfWeek : String),
      (a.openTime = none ∨ a.openTime = some "" ∨ a.closeTime = none ∨
        a.closeTime = some "") →
      berghainMondayClosed a dayOfWeek = false →
      isOpenAt a time dayOfWeek = true) ∧
    (∀ (a : Activity) (time dayOfWeek openT closeT : String),
      a.openTime = some openT → a.closeTime = some closeT → closeT ≠ "" →
      timeToMinutes closeT < timeToMinutes openT →
      berghainMondayClosed a dayOfWeek = false →
      (isOpenAt a time dayOfWeek = true ↔
        (timeToMinutes openT ≤ timeToMinutes time ∨
          timeToMinutes time ≤ timeToMinutes closeT))) ∧
    (∀ (a : Activity) (dayOfWeek : String),
      a.openTime = some "23:00" → a.closeTime = some "06:00" →
      berghainMondayClosed a dayOfWeek = false →
      isOpenAt a "01:00" dayOfWeek = true ∧ isOpenAt a "12:00" dayOfWeek = false) ∧
    (∀ (a : Activity) (time dayOfWeek : String),
      berghainMondayClosed a dayOfWeek = true → isOpenAt a time dayOfWeek = false) := by
  refine ⟨?_, ?_, ?_, ?_⟩
  · intro a time dayOfWeek hmiss hbg
    rw [isOpenAt, hbg]
    simp only [Bool.false_eq_true, if_false]
    rcases hmiss with h | h | h | h
    · rw [h]
    · rw [h]; cases a.closeTime
      · rfl
      · simp
    · rw [h]; cases a.openTime <;> rfl
    · rw [h]; cases a.openTime
      · rfl
      · simp
  · intro a time dayOfWeek openT closeT hopen hclose hcne hnight hbg
    by_cases hoe : openT = ""
    · subst hoe
      have hzero : timeToMinutes "" = 0 := rfl
      rw [hzero] at hnight
      exact absurd hnight (Nat.not_lt_zero _)
    · rw [isOpenAt, hbg]
      simp only [Bool.false_eq_true, if_false, hopen, hclose]
      rw [if_neg (not_or.mpr ⟨hoe, hcne⟩), if_pos hnight]
      constructor
      · intro h
        rcases Bool.or_eq_true_iff.mp h with h1 | h1
        · exact Or.inl (of_decide_eq_true h1)
        · exact Or.inr (of_decide_eq_true h1)
      · intro h
        rcases h with h1 | h1
        · exact Bool.or_eq_true_iff.mpr (Or.inl (decide_eq_true h1))
        · exact Bool.or_eq_true_iff.mpr (Or.inr (decide_eq_true h1))
  · intro a dayOfWeek hopen hclose hbg
    constructor
    · rw [isOpenAt, hbg]
      simp only [Bool.false_eq_true, if_false, hopen, hclose]
      decide
    · rw [isOpenAt, hbg]
      simp only [Bool.false_eq_true, if_false, hopen, hclose]
      decide
  · intro a time dayOfWeek hbg
    rw [isOpenAt, hbg]
    simp

/-- Witness for C8: a cafe with no stated hours is open at noon; the overnight
club with `23:00`–`06:00` satisfies the overnight criterion and is concretely
open at 01:00 and closed at 12:00; Berghain on a Monday is closed. -/
theorem isOpenAt_rules_witness :
    isOpenAt cafeAct "12:00" "Tuesday" = true ∧
    (isOpenAt clubAct "01:00" "Tuesday" = true ↔
      (timeToMinutes "23:00" ≤ timeToMinutes "01:00" ∨
        timeToMinutes "01:00" ≤ timeToMinutes "06:00")) ∧
    (isOpenAt clubAct "01:00" "Tuesday" = true ∧
      isOpenAt clubAct "12:00" "Tuesday" = false) ∧
    isOpenAt berghainAct "01:00" "Monday" = false :=
  ⟨isOpenAt_rules.1 cafeAct "12:00" "Tuesday" (Or.inl rfl) (by decide),
   isOpenAt_rules.2.1 clubAct "01:00" "Tuesday" "23:00" "06:00" rfl rfl
     (by decide) (by decide) (by decide),
   isOpenAt_rules.2.2.1 clubAct "Tuesday" rfl rfl (by decide),
   isOpenAt_rules.2.2.2 berghainAct "01:00" "Monday" (by decide)⟩

/-! ### C9 — activity reuse across generated slots -/

/-- C9 (counterexample): `availableActivities` is never filtered of used
activities, so one cafe fills five distinct generated slots of the relaxed
template (the fixed-booking list is empty, so every slot is generated),
refuting the claim that a chosen activity is excluded from later slots. -/
theorem activity_reused_counterexample :
    ((createDayPlan hav0 "2025-06-03" [cafeAct] [] prefsR).slots.map
      fun s => s.activity.name) =
      ["Corner Cafe", "Corner Cafe", "Corner Cafe", "Corner Cafe", "Corner Cafe"] ∧
    ((createDayPlan hav0 "2025-06-03" [cafeAct] [] prefsR).slots.map
      fun s => s.time) = ["09:30", "11:00", "15:30", "17:30", "22:00"] := by
  refine ⟨by decide, by decide⟩

/-- C9 (amended): every slot of the plan is either a fixed booking or is
filled by `selectBestActivity` applied to the FULL available-activity list at
its template entry — no exclusion of previously used activities takes
place. -/
theorem generated_slots_from_full_pool (haversine : Coordinates → Coordinates → ℚ)
    (date : String) (availableActivities : List Activity)
    (fixedBookings : List TimeSlot) (preferences : Preferences) :
    ∀ s ∈ (createDayPlan haversine date availableActivities fixedBookings
        preferences).slots,
      (∃ b ∈ fixedBookings, s.time = b.time ∧ s.activity = b.activity) ∨
      (∃ e ∈ getScheduleTemplate preferences.pace, s.time = e.time ∧
        selectBestActivity e.type availableActivities preferences
          (getDayOfWeek date) e.time = some s.activity) := by
  intro s hs
  have hpair : (s.time, s.activity) ∈
      ((fixedBookings ++ fillSlots (getScheduleTemplate preferences.pace)
        availableActivities preferences (getDayOfWeek date)
        (fixedBookings.map fun b => b.time)).map fun u => (u.time, u.activity)) := by
    have h1 : (s.time, s.activity) ∈
        ((createDayPlan haversine date availableActivities fixedBookings
          preferences).slots.map fun u => (u.time, u.activity)) :=
      List.mem_map_of_mem _ hs
    have h2 : ((createDayPlan haversine date availableActivities fixedBookings
        preferences).slots.map fun u => (u.time, u.activity)) =
        (((fixedBookings ++ fillSlots (getScheduleTemplate preferences.pace)
          availableActivities preferences (getDayOfWeek date)
          (fixedBookings.map fun b => b.time)).insertionSort slotLE).map
            fun u => (u.time, u.activity)) :=
      addTravelTimes_map_pair haversine _
    rw [h2] at h1
    exact ((List.perm_insertionSort slotLE _).map
      fun u => (u.time, u.activity)).mem_iff.mp h1
  rcases List.mem_map.mp hpair with ⟨u, hu, hpairEq⟩
  have htime : s.time = u.time := (congrArg Prod.fst hpairEq).symm
  have hact : s.activity = u.activity := (congrArg Prod.snd hpairEq).symm
  rcases List.mem_append.mp hu with hufix | hufill
  · exact Or.inl ⟨u, hufix, htime, hact⟩
  · rcases fillSlots_mem availableActivities preferences (getDayOfWeek date)
      (getScheduleTemplate preferences.pace) (fixedBookings.map fun b => b.time)
      u hufill with ⟨e, he, a, ha, rfl⟩
    refine Or.inr ⟨e, he, htime, ?_⟩
    have hact' : s.activity = a := hact
    rw [ha, hact']

/-- Witness for C9 (amended) at a single fixed booking and no available
activities: the only slot is the fixed booking. -/
theorem generated_slots_from_full_pool_witness :
    (∃ b ∈ [fb1], fb1.time = b.time ∧ fb1.activity = b.activity) ∨
    (∃ e ∈ getScheduleTemplate prefsR.pace, fb1.time = e.time ∧
      selectBestActivity e.type [] prefsR (getDayOfWeek "2025-06-03") e.time =
        some fb1.activity) :=
  generated_slots_from_full_pool hav0 "2025-06-03" [] [fb1] prefsR fb1 (by decide)

/-! ### C10 — total cost extraction -/

theorem totalCost_foldl (slots : List TimeSlot) :
    ∀ t : Nat,
      slots.foldl
        (fun total s =>
          match euroToken s.activity.price.data with
          | some n => total + n
          | none => total) t =
      t + (slots.map fun s => (euroToken s.activity.price.data).getD 0).sum := by
  induction slots with
  | nil => intro t; simp
  | cons s rest ih =>
    intro t
    simp only [List.foldl_cons, List.map_cons, List.sum_cons, ih]
    cases h : euroToken s.activity.price.data with
    | none => simp [h]
    | some n => simp [h, Nat.add_assoc]

/-- C10: the total cost of the day plan is the euro rendering of the sum, over
all slots, of the first `/€(\d+)/` token of the price string, a slot with
no such token contributing exactly 0 — for every slot list, whatever the
format of the price strings. -/
theorem calculateTotalCost_spec (slots : List TimeSlot) :
    calculateTotalCost slots =
      "€" ++ toString ((slots.map fun s => (euroToken s.activity.price.data).getD 0).sum) := by
  rw [calculateTotalCost, totalCost_foldl]
  simp

end SyncRAG
